import Mathlib

/-!
Verification of the content-based duplicate-detection core of
`audio_duplicate_finder.py`: the fingerprint function `audio_fingerprint`,
the duplicate scanner `find_duplicates`, and the download-and-verify loop
`download_audio_files`.

Bytes are modelled as `Nat`, file contents as `List Nat`.  The SHA-256
hex digest is modelled as an abstract function `hash : List Nat → α`
applied to the exact byte sequence the Python code feeds to the hasher;
the digest type `α` is a parameter so that injectivity of the hash can be
assumed where a claim calls for it.
-/

/-- Big-endian decimal digits of `n`, with `fuel` bounding the recursion
depth (`fuel = n` always suffices).  Mirrors Python's `str(n)` digit by
digit. -/
def decDigitsAux : Nat → Nat → List Nat
  | 0, _ => []
  | _ + 1, 0 => []
  | fuel + 1, n + 1 => decDigitsAux fuel ((n + 1) / 10) ++ [(n + 1) % 10]

/-- The ASCII bytes of Python's `str(n).encode()` for a natural number:
decimal digits, most significant first, each offset by 48. -/
def decBytes (n : Nat) : List Nat :=
  if n = 0 then [48] else (decDigitsAux n n).map (fun d => d + 48)

/-- A file as seen by `audio_fingerprint`: its byte content plus flags
saying which OS operations succeed on it.  `os.path.getsize` succeeds and
returns `content.length` iff `size_ok`; `open` succeeds iff `open_ok`;
`seek`/`read` succeed iff `read_ok`. -/
structure FileState where
  size_ok : Bool
  open_ok : Bool
  read_ok : Bool
  content : List Nat
deriving DecidableEq

/-- Reading `k` bytes from position `pos` of a file with content `c`
(Python `f.seek(pos)` followed by `f.read(k)`): returns fewer bytes
without error when the file is short. -/
def fileRead (c : List Nat) (pos k : Nat) : List Nat :=
  (c.drop pos).take k

/-- The error raised out of `audio_fingerprint`.  The only way the Python
function can raise is when `os.path.getsize` fails (the original OS error
is re-raised from the fallback's own `getsize` call); the code defines no
dedicated error class. -/
inductive FpError where
  | sizeUnavailable
deriving DecidableEq

/-- `audio_fingerprint(path)` from `audio_duplicate_finder.py` (lines
52-80): hash of `str(file_size)` + first 64 KiB + (last 64 KiB when the
size exceeds 128 KiB); on any exception while opening/seeking/reading,
the `except` fallback returns the hash of `str(os.path.getsize(path))`
alone, which itself raises only when `getsize` fails. -/
def audio_fingerprint {α : Type} (hash : List Nat → α) (f : FileState) :
    Except FpError α :=
  if f.size_ok then
    let n := f.content.length
    if f.open_ok && f.read_ok then
      let first_chunk := fileRead f.content 0 65536
      let last_chunk := if 131072 < n then fileRead f.content (n - 65536) 65536 else []
      Except.ok (hash (decBytes n ++ (first_chunk ++ last_chunk)))
    else
      Except.ok (hash (decBytes n))
  else
    Except.error FpError.sizeUnavailable

/-- The exact byte sequence `audio_fingerprint` feeds to the hasher for a
fully readable file with content `c`. -/
def hashInput (c : List Nat) : List Nat :=
  decBytes c.length ++
    (fileRead c 0 65536 ++
      (if 131072 < c.length then fileRead c (c.length - 65536) 65536 else []))

/-- The fingerprint of a fully readable file with content `c`. -/
def contentFingerprint {α : Type} (hash : List Nat → α) (c : List Nat) : α :=
  hash (hashInput c)

/-- The specification's description of the fingerprint pre-image: the
decimal string of the byte size, then the first 64 KiB of content, then -
only when the size strictly exceeds 128 KiB (131072 bytes) - the last
64 KiB of content (the trailing chunk being empty otherwise). -/
def specFingerprintInput (c : List Nat) : List Nat :=
  decBytes c.length ++
    (c.take 65536 ++
      (if 131072 < c.length then c.drop (c.length - 65536) else []))

/-- Decoding function showing `decBytes` loses no information. -/
def decVal (l : List Nat) : Nat :=
  Nat.ofDigits 10 (l.reverse.map (fun d => d - 48))

/-- Length in bytes of the content portion of the hash input for a file
of size `n`. -/
def chunkLen (n : Nat) : Nat :=
  min n 65536 + (if 131072 < n then 65536 else 0)

/-! ### String helpers mirroring the Python string operations -/

/-- Python `s.lower()`. -/
def lowerStr (s : String) : String :=
  String.mk (s.data.map Char.toLower)

/-- Python `s.endswith(t)`. -/
def strEndsWith (s t : String) : Bool :=
  decide (t.data.length ≤ s.data.length
    ∧ s.data.drop (s.data.length - t.data.length) = t.data)

/-- Python `s.startswith(t)`. -/
def strStartsWith (s t : String) : Bool :=
  decide (s.data.take t.data.length = t.data)

/-- Python `s.strip()`: whitespace removed from both ends. -/
def stripStr (s : String) : String :=
  String.mk
    (((s.data.dropWhile Char.isWhitespace).reverse.dropWhile
        Char.isWhitespace).reverse)

/-- Python `s.rstrip('/')`. -/
def rstripSlash (s : String) : String :=
  String.mk ((s.data.reverse.dropWhile (fun c => c == '/')).reverse)

/-- Python `s.lstrip('/')`. -/
def lstripSlash (s : String) : String :=
  String.mk (s.data.dropWhile (fun c => c == '/'))

/-- Python `link.split("/")[-1]` (also `os.path.basename` for the paths
occurring here): the part after the last slash. -/
def lastSegment (s : String) : String :=
  String.mk ((s.data.reverse.takeWhile (fun c => c != '/')).reverse)

/-- The characters `re.sub(r'[<>:"/\\|?*]', '_', text)` replaces. -/
def forbiddenChars : List Char :=
  ['<', '>', ':', '"', '/', '\\', '|', '?', '*']

/-- Line 133: replace filesystem-unsafe characters of the display text
with an underscore. -/
def sanitizeText (text : String) : String :=
  String.mk (text.data.map (fun c => if c ∈ forbiddenChars then '_' else c))

/-- The extension part of Python `os.path.splitext(name)`: the suffix
from the last dot, except when every character before that dot is itself
a dot (then there is no extension). -/
def extOf (name : String) : String :=
  let rev := name.data.reverse
  let afterDot := rev.takeWhile (fun c => c != '.')
  match rev.drop afterDot.length with
  | [] => ""
  | _ :: beforeDot =>
    if beforeDot.all (fun c => c == '.') then ""
    else String.mk ('.' :: afterDot.reverse)

/-! ### The duplicate scanner -/

/-- The audio-extension allow-list shared by `find_duplicates` (line 210)
and the existing-folder prepopulation (line 93). -/
def audio_extensions : List String :=
  [".mp3", ".wav", ".flac", ".aac", ".ogg", ".m4a", ".wma", ".aiff"]

/-- Python `f.lower().endswith(audio_extensions)`. -/
def isAudioFile (name : String) : Bool :=
  audio_extensions.any (fun e => strEndsWith (lowerStr name) e)

/-- A file met during a directory walk: its full path
(`os.path.join(root, f)`), its basename `f` (what the extension check
inspects), and its I/O behaviour. -/
structure FsFile where
  path : String
  name : String
  state : FileState

/-- Lookup in an insertion-ordered association list (Python `k in d` /
`d[k]`). -/
def lookupA {α β : Type} [DecidableEq α] : List (α × β) → α → Option β
  | [], _ => none
  | (k, v) :: rest, a => if k = a then some v else lookupA rest a

/-- Python dict assignment `d[k] = v`: replaces the value when the key is
present, otherwise appends the new binding. -/
def dictSet {α β : Type} [DecidableEq α] (m : List (α × β)) (k : α) (v : β) :
    List (α × β) :=
  if (lookupA m k).isSome then
    m.map (fun p => if p.1 = k then (k, v) else p)
  else m ++ [(k, v)]

/-- The mutable state of `find_duplicates` (lines 207-227). -/
structure ScanState (α : Type) where
  fingerprints : List (α × String)
  duplicates : List (String × String)
  processed : Nat
  events : List String

/-- The body of the `find_duplicates` walk for one file: filter by
extension, fingerprint (skip and report on error), count, then either
emit a pair against the first-seen path or insert the new fingerprint. -/
def scanStep {α : Type} [DecidableEq α] (hash : List Nat → α)
    (s : ScanState α) (f : FsFile) : ScanState α :=
  if isAudioFile f.name then
    match audio_fingerprint hash f.state with
    | Except.ok fp =>
      let s1 : ScanState α := { s with processed := s.processed + 1 }
      match lookupA s1.fingerprints fp with
      | some orig => { s1 with duplicates := s1.duplicates ++ [(orig, f.path)] }
      | none => { s1 with fingerprints := s1.fingerprints ++ [(fp, f.path)] }
    | Except.error _ => { s with events := s.events ++ ["Skipped: " ++ f.path] }
  else s

/-- `find_duplicates(folder1, folder2, msg_queue)`: one fingerprint index
shared across both roots, pairs emitted in traversal order; returns
`(duplicates, processed_count)`.  A folder is modelled as its walked
files in traversal order. -/
def find_duplicates {α : Type} [DecidableEq α] (hash : List Nat → α)
    (folder1 folder2 : List FsFile) : List (String × String) × Nat :=
  (((folder1 ++ folder2).foldl (scanStep hash) ⟨[], [], 0, []⟩).duplicates,
   ((folder1 ++ folder2).foldl (scanStep hash) ⟨[], [], 0, []⟩).processed)

/-- Did `audio_fingerprint` return a digest for this file? -/
def fingerprintOk {α : Type} (hash : List Nat → α) (f : FsFile) : Bool :=
  match audio_fingerprint hash f.state with
  | Except.ok _ => true
  | Except.error _ => false

/-! ### Link extraction -/

/-- The regex test `re.search(r"\.(mp3|m4a|wav|aac)$", href, re.IGNORECASE)`:
the href - the whole string, not just its path part - ends
case-insensitively in one of the four download extensions. -/
def isAudioHref (href : String) : Bool :=
  [".mp3", ".m4a", ".wav", ".aac"].any (fun e => strEndsWith (lowerStr href) e)

/-- Line 118: an href starting with "http" is kept as is; any other href
is appended to the page URL: `f"{url.rstrip('/')}/{href.lstrip('/')}"`. -/
def resolveLink (url href : String) : String :=
  if strStartsWith href "http" then href
  else rstripSlash url ++ "/" ++ lstripSlash href

/-- Lines 113-119: collect `(full_url, text)` for every page anchor whose
href passes the audio-extension regex, in page order.  A page is
modelled as the `(href, visible-text)` pairs of its anchors; the HTML
parsing itself is the BeautifulSoup collaborator. -/
def audio_links (url : String) (page : List (String × String)) :
    List (String × String) :=
  page.foldl
    (fun acc p =>
      if isAudioHref p.1 then acc ++ [(resolveLink url p.1, stripStr p.2)]
      else acc)
    []

/-- Modelled from the spec: "resolve relative links against the source
URL's base".  The base of a URL is everything up to and including its
last slash; an absolute link (per the code's test, one starting with
"http") is kept unchanged.  This is what the specification describes;
the code instead appends relative hrefs to the whole URL. -/
def specResolveAgainstBase (url href : String) : String :=
  if strStartsWith href "http" then href
  else String.mk ((url.data.reverse.dropWhile (fun c => c != '/')).reverse) ++ href

/-! ### The download-and-verify loop -/

/-- Result of `requests.get(link)` for one candidate: either the call
raises, or it returns a status code, an optional declared Content-Length,
and the body bytes. -/
inductive Fetch where
  | raises
  | resp (status : Nat) (contentLength : Option Nat) (body : List Nat)

/-- Per-candidate outcome, read off from which branch of the loop body
ran (the code reports each branch through `msg_queue` and its two
counters). -/
inductive Outcome where
  | downloaded
  | skippedExisting
  | skippedDuplicate
  | failed
deriving DecidableEq

/-- State threaded through the download loop of `download_audio_files`
(lines 124-198).  `disk` maps each file currently in the download folder
to its bytes; `index` is `existing_fingerprints`; `fetched` records the
links passed to `requests.get`; `lastTemp` is the current value of the
Python local `temp_filename` (`none` while it is still unassigned);
`aborted` records that an exception escaped the loop to the outer
handler of line 203. -/
structure DlState (α : Type) where
  disk : List (String × List Nat)
  index : List (α × String)
  successful : Nat
  skipped : Nat
  events : List String
  fetched : List String
  outcomes : List Outcome
  lastTemp : Option String
  aborted : Bool

/-- `os.path.exists` against the modelled disk. -/
def diskHas (d : List (String × List Nat)) (p : String) : Bool :=
  (lookupA d p).isSome

/-- `os.remove` against the modelled disk. -/
def diskRemove (d : List (String × List Nat)) (p : String) :
    List (String × List Nat) :=
  d.filter (fun q => q.1 != p)

/-- A just-written file is fully readable and holds the written bytes. -/
def fileOnDisk (content : List Nat) : FileState :=
  ⟨true, true, true, content⟩

/-- The destination filename of a candidate (lines 131-134):
`os.path.join(download_folder, re.sub(..., '_', text) + ext)` where `ext`
comes from `os.path.splitext(link.split("/")[-1])`. -/
def destName (folder link text : String) : String :=
  folder ++ "/" ++ sanitizeText text ++ extOf (lastSegment link)

/-- Lines 181-190: rename the temporary file onto the final name, bump
the success count, and insert the new file's fingerprint into the
session index (dict assignment; the inner `except: pass` is the
unreachable error branch). -/
def commitDownload {α : Type} [DecidableEq α] (hash : List Nat → α)
    (st : DlState α) (temp filename : String) (body : List Nat)
    (text : String) : DlState α :=
  let disk1 := dictSet (diskRemove st.disk temp) filename body
  let st1 : DlState α :=
    { st with disk := disk1, successful := st.successful + 1,
              events := st.events ++ ["Downloaded: " ++ text],
              outcomes := st.outcomes ++ [Outcome.downloaded] }
  match audio_fingerprint hash (fileOnDisk body) with
  | Except.ok fp => { st1 with index := dictSet st1.index fp filename }
  | Except.error _ => st1

/-- The body of the download loop for one candidate `(link, text)`
(lines 128-198), including the line-192 exception handler, which reads
the possibly-unassigned local `temp_filename`: when no temporary
filename has been assigned yet in this session, that read raises
`NameError`, which escapes to the outer handler (modelled by
`aborted := true`; the per-iteration progress message is elided, and the
truncated exception text of the error messages is not modelled). -/
def processCandidate {α : Type} [DecidableEq α] (hash : List Nat → α)
    (fetchOf : String → Fetch) (folder : String) (st : DlState α)
    (c : String × String) : DlState α :=
  if st.aborted then st
  else
    let link := c.1
    let text := c.2
    let filename := destName folder link text
    if diskHas st.disk filename then
      { st with events := st.events ++ ["File already exists: " ++ text],
                outcomes := st.outcomes ++ [Outcome.skippedExisting] }
    else
      let st1 : DlState α := { st with fetched := st.fetched ++ [link] }
      match fetchOf link with
      | Fetch.raises =>
        match st1.lastTemp with
        | none => { st1 with aborted := true }
        | some t =>
          let disk1 :=
            if diskHas st1.disk t then diskRemove st1.disk t else st1.disk
          { st1 with disk := disk1,
                     events := st1.events ++ ["Error downloading " ++ text],
                     outcomes := st1.outcomes ++ [Outcome.failed] }
      | Fetch.resp status clen body =>
        if status ≠ 200 then
          { st1 with
              events := st1.events ++
                ["Failed: HTTP " ++ toString status ++ " for " ++ text],
              outcomes := st1.outcomes ++ [Outcome.failed] }
        else if (match clen with
                 | some expected => decide (expected ≠ body.length)
                 | none => false) then
          { st1 with
              events := st1.events ++ ["Corrupted: " ++ text ++ " (size mismatch)"],
              outcomes := st1.outcomes ++ [Outcome.failed] }
        else if body.length = 0 then
          { st1 with events := st1.events ++ ["Empty file: " ++ text],
                     outcomes := st1.outcomes ++ [Outcome.failed] }
        else
          let temp := filename ++ ".tmp"
          let st2 : DlState α :=
            { st1 with disk := dictSet st1.disk temp body,
                       lastTemp := some temp }
          if st2.index.isEmpty then
            commitDownload hash st2 temp filename body text
          else
            match audio_fingerprint hash (fileOnDisk body) with
            | Except.ok fp =>
              match lookupA st2.index fp with
              | some existing_file =>
                { st2 with
                    disk := diskRemove st2.disk temp,
                    events := st2.events ++
                      ["Duplicate found: " ++ text ++ " matches "
                        ++ lastSegment existing_file],
                    skipped := st2.skipped + 1,
                    outcomes := st2.outcomes ++ [Outcome.skippedDuplicate] }
              | none => commitDownload hash st2 temp filename body text
            | Except.error _ =>
              commitDownload hash
                { st2 with
                    events := st2.events ++
                      ["Error checking duplicate for " ++ text] }
                temp filename body text

/-- Lines 89-105: pre-populate `existing_fingerprints` from the existing
folder, collecting the per-file error events.  Dict assignment means a
later file with an already-seen fingerprint overwrites the earlier
binding. -/
def buildExistingIndex {α : Type} [DecidableEq α] (hash : List Nat → α)
    (existing : List FsFile) : List (α × String) × List String :=
  existing.foldl
    (fun acc f =>
      if isAudioFile f.name then
        match audio_fingerprint hash f.state with
        | Except.ok fp => (dictSet acc.1 fp f.path, acc.2)
        | Except.error _ =>
          (acc.1, acc.2 ++ ["Couldn't fingerprint " ++ f.name])
      else acc)
    ([], [])

/-- The candidate loop run over a candidate list from a given state. -/
def runCandidates {α : Type} [DecidableEq α] (hash : List Nat → α)
    (fetchOf : String → Fetch) (folder : String) (st : DlState α)
    (links : List (String × String)) : DlState α :=
  links.foldl (processCandidate hash fetchOf folder) st

/-- One whole download session: prepopulate the index from the existing
folder (an absent `existing_folder` is the empty list), extract the
audio links of the page, and run the loop.  `disk0` is the prior content
of the download folder. -/
def downloadSession {α : Type} [DecidableEq α] (hash : List Nat → α)
    (fetchOf : String → Fetch) (url folder : String)
    (page : List (String × String)) (existing : List FsFile)
    (disk0 : List (String × List Nat)) : DlState α :=
  let pre := buildExistingIndex hash existing
  runCandidates hash fetchOf folder
    ⟨disk0, pre.1, 0, 0, pre.2, [], [], none, false⟩
    (audio_links url page)

/-- The return value of `download_audio_files`:
`(successful_downloads, len(audio_links), skipped_duplicates)`, or
`(0, 0, 0)` from the outer handler when an exception escaped the loop. -/
def download_audio_files {α : Type} [DecidableEq α] (hash : List Nat → α)
    (fetchOf : String → Fetch) (url folder : String)
    (page : List (String × String)) (existing : List FsFile)
    (disk0 : List (String × List Nat)) : Nat × Nat × Nat :=
  let st := downloadSession hash fetchOf url folder page existing disk0
  if st.aborted then (0, 0, 0)
  else (st.successful, (audio_links url page).length, st.skipped)

theorem fileRead_zero (c : List Nat) (k : Nat) : fileRead c 0 k = c.take k := by
  simp [fileRead]

theorem fileRead_last (c : List Nat) (h : 65536 ≤ c.length) :
    fileRead c (c.length - 65536) 65536 = c.drop (c.length - 65536) := by
  unfold fileRead
  apply List.take_of_length_le
  simp only [List.length_drop]
  omega

theorem hashInput_eq_spec (c : List Nat) : hashInput c = specFingerprintInput c := by
  unfold hashInput specFingerprintInput
  rw [fileRead_zero]
  by_cases h : 131072 < c.length
  · rw [if_pos h, if_pos h, fileRead_last c (by omega)]
  · rw [if_neg h, if_neg h]

theorem audio_fingerprint_readable {α : Type} (hash : List Nat → α) (f : FileState)
    (hs : f.size_ok = true) (ho : f.open_ok = true) (hr : f.read_ok = true) :
    audio_fingerprint hash f = Except.ok (contentFingerprint hash f.content) := by
  simp [audio_fingerprint, hs, ho, hr, contentFingerprint, hashInput]

/-- C1: for a readable file, `audio_fingerprint` returns exactly the
digest of (decimal size string) + (first 64 KiB) + (last 64 KiB only when
size > 128 KiB); an empty file hashes the string "0" plus two empty
chunks; and the result depends only on the content (hence byte-identical
files get equal digests, whatever their paths or metadata). -/
theorem audio_fingerprint_spec {α : Type} (hash : List Nat → α) (f g : FileState)
    (hs : f.size_ok = true) (ho : f.open_ok = true) (hr : f.read_ok = true)
    (hs2 : g.size_ok = true) (ho2 : g.open_ok = true) (hr2 : g.read_ok = true) :
    audio_fingerprint hash f = Except.ok (hash (specFingerprintInput f.content))
    ∧ (f.content = [] →
        audio_fingerprint hash f = Except.ok (hash (decBytes 0 ++ ([] ++ []))))
    ∧ (g.content = f.content →
        audio_fingerprint hash g = audio_fingerprint hash f) := by
  refine ⟨?_, ?_, ?_⟩
  · rw [audio_fingerprint_readable hash f hs ho hr, contentFingerprint,
      hashInput_eq_spec]
  · intro hempty
    rw [audio_fingerprint_readable hash f hs ho hr, contentFingerprint,
      hashInput_eq_spec]
    simp [specFingerprintInput, hempty, decBytes]
  · intro hcontent
    rw [audio_fingerprint_readable hash f hs ho hr,
      audio_fingerprint_readable hash g hs2 ho2 hr2, hcontent]

theorem audio_fingerprint_spec_witness :
    audio_fingerprint (fun l => l) ⟨true, true, true, [7, 7]⟩
      = Except.ok (specFingerprintInput [7, 7])
    ∧ audio_fingerprint (fun l => l) ⟨true, true, true, []⟩
      = Except.ok (decBytes 0 ++ ([] ++ [])) := by
  refine ⟨?_, ?_⟩
  · exact (audio_fingerprint_spec (fun l => l) ⟨true, true, true, [7, 7]⟩
      ⟨true, true, true, [7, 7]⟩ rfl rfl rfl rfl rfl rfl).1
  · exact (audio_fingerprint_spec (fun l => l) ⟨true, true, true, []⟩
      ⟨true, true, true, []⟩ rfl rfl rfl rfl rfl rfl).2.1 rfl

/-! ### Decimal encoding facts (for the size-discrimination claim) -/

theorem decDigitsAux_eq (fuel : Nat) :
    ∀ n, n ≤ fuel → decDigitsAux fuel n = (Nat.digits 10 n).reverse := by
  induction fuel with
  | zero =>
    intro n hn
    have : n = 0 := Nat.le_zero.mp hn
    subst this
    simp [decDigitsAux]
  | succ fuel ih =>
    intro n hn
    match n with
    | 0 => simp [decDigitsAux]
    | m + 1 =>
      have hdiv : (m + 1) / 10 ≤ fuel := by
        have := Nat.div_lt_self (Nat.succ_pos m) (by norm_num : 1 < 10)
        omega
      rw [show decDigitsAux (fuel + 1) (m + 1)
            = decDigitsAux fuel ((m + 1) / 10) ++ [(m + 1) % 10] from rfl,
        ih _ hdiv,
        Nat.digits_def' (by norm_num : (1:ℕ) < 10) (Nat.succ_pos m),
        List.reverse_cons]

theorem decBytes_of_ne_zero {n : Nat} (h : n ≠ 0) :
    decBytes n = (Nat.digits 10 n).reverse.map (fun d => d + 48) := by
  rw [decBytes, if_neg h, decDigitsAux_eq n n le_rfl]

theorem decVal_decBytes (n : Nat) : decVal (decBytes n) = n := by
  by_cases h : n = 0
  · subst h
    simp [decBytes, decVal, Nat.ofDigits]
  · rw [decBytes_of_ne_zero h, decVal]
    rw [show ((Nat.digits 10 n).reverse.map (fun d => d + 48)).reverse
          = (Nat.digits 10 n).reverse.reverse.map (fun d => d + 48) from
        (List.map_reverse _ _).symm]
    rw [List.reverse_reverse, List.map_map]
    have hcomp : ((fun d => d - 48) ∘ fun d : Nat => d + 48) = id := by
      funext d
      simp
    rw [hcomp, List.map_id, Nat.ofDigits_digits]

theorem decBytes_inj {m n : Nat} (h : decBytes m = decBytes n) : m = n := by
  rw [← decVal_decBytes m, h, decVal_decBytes]

theorem decBytes_length_pos (n : Nat) : 1 ≤ (decBytes n).length := by
  by_cases h : n = 0
  · subst h; simp [decBytes]
  · rw [decBytes_of_ne_zero h]
    simp only [List.length_map, List.length_reverse]
    have hne : Nat.digits 10 n ≠ [] :=
      (Nat.digits_ne_nil_iff_ne_zero (b := 10) (n := n)).mpr h
    cases hd : Nat.digits 10 n with
    | nil => exact absurd hd hne
    | cons a l => simp [hd]

theorem decBytes_length_of_ne_zero {n : Nat} (h : n ≠ 0) :
    (decBytes n).length = (Nat.digits 10 n).length := by
  rw [decBytes_of_ne_zero h]
  simp

theorem decBytes_length_le_iff {n k : Nat} (hk : 1 ≤ k) :
    (decBytes n).length ≤ k ↔ n < 10 ^ k := by
  by_cases h : n = 0
  · subst h
    simp [decBytes, hk, Nat.pos_pow_of_pos k (by norm_num : (0:ℕ) < 10)]
  · rw [decBytes_length_of_ne_zero h]
    constructor
    · intro hlen
      calc n < 10 ^ (Nat.digits 10 n).length :=
              Nat.lt_base_pow_length_digits (by norm_num)
        _ ≤ 10 ^ k := Nat.pow_le_pow_right (by norm_num) hlen
    · intro hlt
      by_contra hgt
      push_neg at hgt
      have h1 : 10 ^ (k + 1) ≤ 10 ^ (Nat.digits 10 n).length :=
        Nat.pow_le_pow_right (by norm_num) hgt
      have h2 : 10 ^ (Nat.digits 10 n).length ≤ 10 * n :=
        Nat.base_pow_length_digits_le 10 n (by norm_num) h
      have h3 : 10 * 10 ^ k ≤ 10 * n := by
        rw [← pow_succ']
        exact le_trans h1 h2
      have h4 : 10 ^ k ≤ n := Nat.le_of_mul_le_mul_left h3 (by norm_num)
      omega

theorem hashInput_length (c : List Nat) :
    (hashInput c).length = (decBytes c.length).length + chunkLen c.length := by
  unfold hashInput chunkLen fileRead
  by_cases h : 131072 < c.length
  · rw [if_pos h, if_pos h]
    simp only [List.length_append, List.length_take, List.length_drop,
      List.drop_zero]
    omega
  · rw [if_neg h, if_neg h]
    simp only [List.length_append, List.length_take, List.length_drop,
      List.drop_zero, List.length_nil]
    omega

theorem decBytes_length_eq_of_total_eq {n1 n2 : Nat}
    (h : (decBytes n1).length + chunkLen n1
          = (decBytes n2).length + chunkLen n2) :
    (decBytes n1).length = (decBytes n2).length := by
  have p1 := decBytes_length_pos n1
  have p2 := decBytes_length_pos n2
  have a1 : (decBytes n1).length ≤ 1 ↔ n1 < 10 := by
    simpa using decBytes_length_le_iff (n := n1) (k := 1) le_rfl
  have a2 : (decBytes n1).length ≤ 2 ↔ n1 < 100 := by
    simpa using decBytes_length_le_iff (n := n1) (k := 2) (by norm_num)
  have a3 : (decBytes n1).length ≤ 3 ↔ n1 < 1000 := by
    simpa using decBytes_length_le_iff (n := n1) (k := 3) (by norm_num)
  have a4 : (decBytes n1).length ≤ 4 ↔ n1 < 10000 := by
    simpa using decBytes_length_le_iff (n := n1) (k := 4) (by norm_num)
  have a5 : (decBytes n1).length ≤ 5 ↔ n1 < 100000 := by
    simpa using decBytes_length_le_iff (n := n1) (k := 5) (by norm_num)
  have a6 : (decBytes n1).length ≤ 6 ↔ n1 < 1000000 := by
    simpa using decBytes_length_le_iff (n := n1) (k := 6) (by norm_num)
  have b1 : (decBytes n2).length ≤ 1 ↔ n2 < 10 := by
    simpa using decBytes_length_le_iff (n := n2) (k := 1) le_rfl
  have b2 : (decBytes n2).length ≤ 2 ↔ n2 < 100 := by
    simpa using decBytes_length_le_iff (n := n2) (k := 2) (by norm_num)
  have b3 : (decBytes n2).length ≤ 3 ↔ n2 < 1000 := by
    simpa using decBytes_length_le_iff (n := n2) (k := 3) (by norm_num)
  have b4 : (decBytes n2).length ≤ 4 ↔ n2 < 10000 := by
    simpa using decBytes_length_le_iff (n := n2) (k := 4) (by norm_num)
  have b5 : (decBytes n2).length ≤ 5 ↔ n2 < 100000 := by
    simpa using decBytes_length_le_iff (n := n2) (k := 5) (by norm_num)
  have b6 : (decBytes n2).length ≤ 6 ↔ n2 < 1000000 := by
    simpa using decBytes_length_le_iff (n := n2) (k := 6) (by norm_num)
  unfold chunkLen at h
  by_cases h1 : 131072 < n1 <;> by_cases h2 : 131072 < n2 <;>
    simp only [if_pos, if_neg, h1, h2, ite_true, ite_false] at h <;>
    omega

theorem hashInput_ne_of_length_ne {c1 c2 : List Nat}
    (hne : c1.length ≠ c2.length) : hashInput c1 ≠ hashInput c2 := by
  intro h
  have hlen : (hashInput c1).length = (hashInput c2).length := by rw [h]
  rw [hashInput_length, hashInput_length] at hlen
  have hdlen : (decBytes c1.length).length = (decBytes c2.length).length :=
    decBytes_length_eq_of_total_eq hlen
  unfold hashInput at h
  have := (List.append_inj h hdlen).1
  exact hne (decBytes_inj this)

/-- C7: under an injective model of the 256-bit hash, two readable files
of different byte sizes always receive different fingerprints, because
the decimal size string is the first hashed field and the concatenated
hash inputs are distinct whenever the sizes are. -/
theorem audio_fingerprint_size_discriminates {α : Type} (hash : List Nat → α)
    (hinj : Function.Injective hash) (f1 f2 : FileState)
    (hs1 : f1.size_ok = true) (ho1 : f1.open_ok = true) (hr1 : f1.read_ok = true)
    (hs2 : f2.size_ok = true) (ho2 : f2.open_ok = true) (hr2 : f2.read_ok = true)
    (hne : f1.content.length ≠ f2.content.length) :
    audio_fingerprint hash f1 ≠ audio_fingerprint hash f2 := by
  rw [audio_fingerprint_readable hash f1 hs1 ho1 hr1,
    audio_fingerprint_readable hash f2 hs2 ho2 hr2]
  intro h
  have h1 : contentFingerprint hash f1.content = contentFingerprint hash f2.content :=
    Except.ok.inj h
  exact hashInput_ne_of_length_ne hne (hinj h1)

theorem audio_fingerprint_size_discriminates_witness :
    audio_fingerprint (fun l : List Nat => l) ⟨true, true, true, []⟩
      ≠ audio_fingerprint (fun l : List Nat => l) ⟨true, true, true, [0]⟩ :=
  audio_fingerprint_size_discriminates (fun l => l) Function.injective_id
    ⟨true, true, true, []⟩ ⟨true, true, true, [0]⟩
    rfl rfl rfl rfl rfl rfl (by decide)

/-! ### Scanner lemmas -/

theorem scanStep_processed {α : Type} [DecidableEq α] (hash : List Nat → α)
    (s : ScanState α) (f : FsFile) :
    (scanStep hash s f).processed
      = s.processed
        + (if isAudioFile f.name && fingerprintOk hash f then 1 else 0) := by
  unfold scanStep
  by_cases ha : isAudioFile f.name
  · cases hfp : audio_fingerprint hash f.state with
    | ok fp =>
      have hok : fingerprintOk hash f = true := by simp [fingerprintOk, hfp]
      cases hl : lookupA s.fingerprints fp <;> simp [ha, hfp, hok, hl]
    | error e =>
      have hok : fingerprintOk hash f = false := by simp [fingerprintOk, hfp]
      simp [ha, hfp, hok]
  · simp [ha]

theorem scanFold_processed {α : Type} [DecidableEq α] (hash : List Nat → α)
    (l : List FsFile) :
    ∀ s : ScanState α,
      (l.foldl (scanStep hash) s).processed
        = s.processed
          + (l.filter (fun f => isAudioFile f.name && fingerprintOk hash f)).length := by
  induction l with
  | nil => intro s; simp
  | cons f rest ih =>
    intro s
    rw [List.foldl_cons, ih, scanStep_processed, List.filter_cons]
    by_cases h : (isAudioFile f.name && fingerprintOk hash f) = true
    · simp only [h, if_true]
      simp only [List.length_cons]
      omega
    · simp only [h, if_false]
      simp [h]

theorem scanStep_congr {α : Type} [DecidableEq α] (hash : List Nat → α)
    (s1 s2 : ScanState α) (f : FsFile)
    (hf : s1.fingerprints = s2.fingerprints)
    (hd : s1.duplicates = s2.duplicates)
    (hp : s1.processed = s2.processed) :
    (scanStep hash s1 f).fingerprints = (scanStep hash s2 f).fingerprints
    ∧ (scanStep hash s1 f).duplicates = (scanStep hash s2 f).duplicates
    ∧ (scanStep hash s1 f).processed = (scanStep hash s2 f).processed := by
  unfold scanStep
  by_cases ha : isAudioFile f.name
  · cases hfp : audio_fingerprint hash f.state with
    | ok fp =>
      rw [hf]
      cases hl : lookupA s2.fingerprints fp <;> simp [ha, hfp, hd, hp, hl]
    | error e => simp [ha, hfp, hf, hd, hp]
  · simp [ha, hf, hd, hp]

theorem scanFold_congr {α : Type} [DecidableEq α] (hash : List Nat → α)
    (l : List FsFile) :
    ∀ s1 s2 : ScanState α,
      s1.fingerprints = s2.fingerprints → s1.duplicates = s2.duplicates →
      s1.processed = s2.processed →
      (l.foldl (scanStep hash) s1).fingerprints
          = (l.foldl (scanStep hash) s2).fingerprints
      ∧ (l.foldl (scanStep hash) s1).duplicates
          = (l.foldl (scanStep hash) s2).duplicates
      ∧ (l.foldl (scanStep hash) s1).processed
          = (l.foldl (scanStep hash) s2).processed := by
  induction l with
  | nil => intro s1 s2 hf hd hp; exact ⟨hf, hd, hp⟩
  | cons f rest ih =>
    intro s1 s2 hf hd hp
    rw [List.foldl_cons, List.foldl_cons]
    obtain ⟨hf1, hd1, hp1⟩ := scanStep_congr hash s1 s2 f hf hd hp
    exact ih _ _ hf1 hd1 hp1

theorem lookupA_append_some {α β : Type} [DecidableEq α]
    (m l : List (α × β)) (a : α) (v : β) (h : lookupA m a = some v) :
    lookupA (m ++ l) a = some v := by
  induction m with
  | nil => simp [lookupA] at h
  | cons kv rest ih =>
    obtain ⟨k, w⟩ := kv
    rw [List.cons_append]
    simp only [lookupA] at h ⊢
    by_cases hk : k = a
    · rw [if_pos hk] at h ⊢
      exact h
    · rw [if_neg hk] at h ⊢
      exact ih h

theorem scanStep_canonical_stable {α : Type} [DecidableEq α]
    (hash : List Nat → α) (s : ScanState α) (f : FsFile) (fp : α) (p : String)
    (h : lookupA s.fingerprints fp = some p) :
    lookupA (scanStep hash s f).fingerprints fp = some p := by
  unfold scanStep
  by_cases ha : isAudioFile f.name
  · cases hfp : audio_fingerprint hash f.state with
    | ok fpv =>
      cases hl : lookupA s.fingerprints fpv with
      | some orig => simp [ha, hfp, hl, h]
      | none =>
        simp only [ha, if_true, hfp, hl]
        exact lookupA_append_some _ _ _ _ h
    | error e => simp [ha, hfp, h]
  · simp [ha, h]

theorem scanFold_canonical_stable {α : Type} [DecidableEq α]
    (hash : List Nat → α) (l : List FsFile) :
    ∀ (s : ScanState α) (fp : α) (p : String),
      lookupA s.fingerprints fp = some p →
      lookupA (l.foldl (scanStep hash) s).fingerprints fp = some p := by
  induction l with
  | nil => intro s fp p h; exact h
  | cons f rest ih =>
    intro s fp p h
    rw [List.foldl_cons]
    exact ih _ _ _ (scanStep_canonical_stable hash s f fp p h)

theorem scanStep_pair_count {α : Type} [DecidableEq α] (hash : List Nat → α)
    (s : ScanState α) (f : FsFile) :
    (scanStep hash s f).duplicates.length
        + (scanStep hash s f).fingerprints.length
      = s.duplicates.length + s.fingerprints.length
        + (if isAudioFile f.name && fingerprintOk hash f then 1 else 0) := by
  unfold scanStep
  by_cases ha : isAudioFile f.name
  · cases hfp : audio_fingerprint hash f.state with
    | ok fp =>
      have hok : fingerprintOk hash f = true := by simp [fingerprintOk, hfp]
      cases hl : lookupA s.fingerprints fp <;> simp [ha, hfp, hok, hl] <;> omega
    | error e =>
      have hok : fingerprintOk hash f = false := by simp [fingerprintOk, hfp]
      simp [ha, hfp, hok]
  · simp [ha]

theorem scanFold_pair_count {α : Type} [DecidableEq α] (hash : List Nat → α)
    (l : List FsFile) :
    ∀ s : ScanState α,
      (l.foldl (scanStep hash) s).duplicates.length
          + (l.foldl (scanStep hash) s).fingerprints.length
        = s.duplicates.length + s.fingerprints.length
          + (l.filter (fun f => isAudioFile f.name && fingerprintOk hash f)).length := by
  induction l with
  | nil => intro s; simp
  | cons f rest ih =>
    intro s
    rw [List.foldl_cons, ih, scanStep_pair_count, List.filter_cons]
    by_cases h : (isAudioFile f.name && fingerprintOk hash f) = true
    · simp only [h, if_true]
      simp only [List.length_cons]
      omega
    · simp only [h, if_false]
      simp [h]

/-- C3: one fingerprint index is shared across both roots of a scan:
`processed_count` counts exactly the successfully fingerprinted audio
files of both roots together; every successfully fingerprinted file
either becomes a fingerprint's canonical path or emits exactly one pair
(so pairs + index entries = processed); a fingerprint's first-seen
canonical path is never displaced afterwards; and for two roots holding
one byte-identical readable audio file each, the scan returns exactly
one pair whose first element is the file met first in traversal
order. -/
theorem find_duplicates_shared_index {α : Type} [DecidableEq α]
    (hash : List Nat → α) (a b : FsFile)
    (haa : isAudioFile a.name = true) (hab : isAudioFile b.name = true)
    (hsa : a.state.size_ok = true) (hoa : a.state.open_ok = true)
    (hra : a.state.read_ok = true)
    (hsb : b.state.size_ok = true) (hob : b.state.open_ok = true)
    (hrb : b.state.read_ok = true)
    (hcontent : b.state.content = a.state.content) :
    (∀ folder1 folder2 : List FsFile,
      (find_duplicates hash folder1 folder2).2
        = ((folder1 ++ folder2).filter
            (fun f => isAudioFile f.name && fingerprintOk hash f)).length)
    ∧ (∀ folder1 folder2 : List FsFile,
        (find_duplicates hash folder1 folder2).1.length
          + ((folder1 ++ folder2).foldl (scanStep hash)
              ⟨[], [], 0, []⟩).fingerprints.length
          = (find_duplicates hash folder1 folder2).2)
    ∧ (∀ (l : List FsFile) (s : ScanState α) (fp : α) (p : String),
        lookupA s.fingerprints fp = some p →
        lookupA (l.foldl (scanStep hash) s).fingerprints fp = some p)
    ∧ find_duplicates hash [a] [b] = ([(a.path, b.path)], 2) := by
  refine ⟨?_, ?_, ?_, ?_⟩
  · intro folder1 folder2
    unfold find_duplicates
    rw [scanFold_processed]
    simp
  · intro folder1 folder2
    unfold find_duplicates
    rw [scanFold_pair_count, scanFold_processed]
    simp
  · intro l s fp p h
    exact scanFold_canonical_stable hash l s fp p h
  · have ha' := audio_fingerprint_readable hash a.state hsa hoa hra
    have hb' := audio_fingerprint_readable hash b.state hsb hob hrb
    rw [hcontent] at hb'
    unfold find_duplicates
    rw [show ([a] ++ [b] : List FsFile) = [a, b] from rfl,
      List.foldl_cons, List.foldl_cons, List.foldl_nil]
    rw [show scanStep hash ⟨[], [], 0, []⟩ a
          = ⟨[(contentFingerprint hash a.state.content, a.path)], [], 1, []⟩ from by
        simp [scanStep, haa, ha', lookupA]]
    simp [scanStep, hab, hb', lookupA]

theorem find_duplicates_shared_index_witness :
    find_duplicates (fun l : List Nat => l)
      [⟨"r1/x.mp3", "x.mp3", ⟨true, true, true, [1]⟩⟩]
      [⟨"r2/y.mp3", "y.mp3", ⟨true, true, true, [1]⟩⟩]
      = ([("r1/x.mp3", "r2/y.mp3")], 2) :=
  (find_duplicates_shared_index (fun l : List Nat => l)
    ⟨"r1/x.mp3", "x.mp3", ⟨true, true, true, [1]⟩⟩
    ⟨"r2/y.mp3", "y.mp3", ⟨true, true, true, [1]⟩⟩
    (by decide) (by decide) rfl rfl rfl rfl rfl rfl rfl).2.2.2

theorem audio_fingerprint_fallback_eq {α : Type} (hash : List Nat → α)
    (f : FileState) (hs : f.size_ok = true)
    (hr : f.open_ok = false ∨ f.read_ok = false) :
    audio_fingerprint hash f = Except.ok (hash (decBytes f.content.length)) := by
  rcases hr with h | h <;> simp [audio_fingerprint, hs, h]

/-- C10: when reading a file's content fails but its size is obtainable,
`audio_fingerprint` does not raise - it returns the digest of the
decimal size string alone; two unreadable files of equal size therefore
fingerprint identically and a scan reports them as duplicates of each
other, and such a file still increments `processed_count`. -/
theorem audio_fingerprint_fallback {α : Type} [DecidableEq α]
    (hash : List Nat → α) (x y : FsFile)
    (hax : isAudioFile x.name = true) (hay : isAudioFile y.name = true)
    (hsx : x.state.size_ok = true)
    (hrx : x.state.open_ok = false ∨ x.state.read_ok = false)
    (hsy : y.state.size_ok = true)
    (hry : y.state.open_ok = false ∨ y.state.read_ok = false)
    (hlen : y.state.content.length = x.state.content.length) :
    audio_fingerprint hash x.state
      = Except.ok (hash (decBytes x.state.content.length))
    ∧ (∀ s : ScanState α, (scanStep hash s x).processed = s.processed + 1)
    ∧ find_duplicates hash [x] [y] = ([(x.path, y.path)], 2) := by
  have hx' := audio_fingerprint_fallback_eq hash x.state hsx hrx
  have hy' := audio_fingerprint_fallback_eq hash y.state hsy hry
  rw [hlen] at hy'
  refine ⟨hx', ?_, ?_⟩
  · intro s
    rw [scanStep_processed]
    have hok : fingerprintOk hash x = true := by simp [fingerprintOk, hx']
    simp [hax, hok]
  · unfold find_duplicates
    rw [show ([x] ++ [y] : List FsFile) = [x, y] from rfl,
      List.foldl_cons, List.foldl_cons, List.foldl_nil]
    rw [show scanStep hash ⟨[], [], 0, []⟩ x
          = ⟨[(hash (decBytes x.state.content.length), x.path)], [], 1, []⟩ from by
        simp [scanStep, hax, hx', lookupA]]
    simp [scanStep, hay, hy', lookupA]

theorem audio_fingerprint_fallback_witness :
    audio_fingerprint (fun l : List Nat => l) (⟨true, false, true, [1, 2]⟩ : FileState)
      = Except.ok (decBytes 2)
    ∧ find_duplicates (fun l : List Nat => l)
        [⟨"p/x.mp3", "x.mp3", ⟨true, false, true, [1, 2]⟩⟩]
        [⟨"q/y.mp3", "y.mp3", ⟨true, true, false, [3, 4]⟩⟩]
        = ([("p/x.mp3", "q/y.mp3")], 2) := by
  have h := audio_fingerprint_fallback (fun l : List Nat => l)
    ⟨"p/x.mp3", "x.mp3", ⟨true, false, true, [1, 2]⟩⟩
    ⟨"q/y.mp3", "y.mp3", ⟨true, true, false, [3, 4]⟩⟩
    (by decide) (by decide) rfl (Or.inl rfl) rfl (Or.inr rfl) rfl
  exact ⟨h.1, h.2.2⟩

theorem buildIndex_congr {α : Type} [DecidableEq α] (hash : List Nat → α)
    (l : List FsFile) :
    ∀ (m : List (α × String)) (ev1 ev2 : List String),
      (l.foldl
        (fun acc f =>
          if isAudioFile f.name then
            match audio_fingerprint hash f.state with
            | Except.ok fp => (dictSet acc.1 fp f.path, acc.2)
            | Except.error _ =>
              (acc.1, acc.2 ++ ["Couldn't fingerprint " ++ f.name])
          else acc)
        (m, ev1)).1
      = (l.foldl
          (fun acc f =>
            if isAudioFile f.name then
              match audio_fingerprint hash f.state with
              | Except.ok fp => (dictSet acc.1 fp f.path, acc.2)
              | Except.error _ =>
                (acc.1, acc.2 ++ ["Couldn't fingerprint " ++ f.name])
            else acc)
          (m, ev2)).1 := by
  induction l with
  | nil => intro m ev1 ev2; rfl
  | cons f rest ih =>
    intro m ev1 ev2
    rw [List.foldl_cons, List.foldl_cons]
    by_cases ha : isAudioFile f.name
    · cases hfp : audio_fingerprint hash f.state with
      | ok fp => simp only [ha, if_true, hfp]; exact ih _ _ _
      | error e => simp only [ha, if_true, hfp]; exact ih _ _ _
    · simp only [ha, if_false, Bool.false_eq_true]
      exact ih _ _ _

/-- C2 amended: when a file's size cannot be obtained, the fingerprint
call fails (with the propagated OS error - the code defines no dedicated
FingerprintError type); when the size is obtainable but opening or
reading fails, no error is raised at all (the fallback digest of C10 is
returned instead).  Both the scanner and the download prepopulation wrap
the call in a catch-all: a raising file is skipped with a reported event
and contributes nothing, and the operation continues over the remaining
files - the failure is never fatal. -/
theorem audio_fingerprint_error_policy {α : Type} [DecidableEq α]
    (hash : List Nat → α) (x : FsFile) (rest folder2 existing : List FsFile)
    (hsz : x.state.size_ok = false) :
    audio_fingerprint hash x.state = Except.error FpError.sizeUnavailable
    ∧ (∀ s : ScanState α, scanStep hash s x
        = if isAudioFile x.name then
            { s with events := s.events ++ ["Skipped: " ++ x.path] }
          else s)
    ∧ (find_duplicates hash (x :: rest) folder2).1
        = (find_duplicates hash rest folder2).1
    ∧ (find_duplicates hash (x :: rest) folder2).2
        = (find_duplicates hash rest folder2).2
    ∧ (buildExistingIndex hash (x :: existing)).1
        = (buildExistingIndex hash existing).1 := by
  have herr : audio_fingerprint hash x.state = Except.error FpError.sizeUnavailable := by
    simp [audio_fingerprint, hsz]
  have hstep : ∀ s : ScanState α, scanStep hash s x
      = if isAudioFile x.name then
          { s with events := s.events ++ ["Skipped: " ++ x.path] }
        else s := by
    intro s
    by_cases ha : isAudioFile x.name <;> simp [scanStep, ha, herr]
  refine ⟨herr, hstep, ?_, ?_, ?_⟩
  · unfold find_duplicates
    rw [show ((x :: rest) ++ folder2 : List FsFile) = x :: (rest ++ folder2) from rfl,
      List.foldl_cons, hstep]
    by_cases ha : isAudioFile x.name
    · simp only [ha, if_true]
      exact (scanFold_congr hash (rest ++ folder2)
        ⟨[], [], 0, [] ++ ["Skipped: " ++ x.path]⟩ ⟨[], [], 0, []⟩
        rfl rfl rfl).2.1
    · simp only [ha, if_false, Bool.false_eq_true]
  · unfold find_duplicates
    rw [show ((x :: rest) ++ folder2 : List FsFile) = x :: (rest ++ folder2) from rfl,
      List.foldl_cons, hstep]
    by_cases ha : isAudioFile x.name
    · simp only [ha, if_true]
      exact (scanFold_congr hash (rest ++ folder2)
        ⟨[], [], 0, [] ++ ["Skipped: " ++ x.path]⟩ ⟨[], [], 0, []⟩
        rfl rfl rfl).2.2
    · simp only [ha, if_false, Bool.false_eq_true]
  · unfold buildExistingIndex
    rw [List.foldl_cons]
    by_cases ha : isAudioFile x.name
    · simp only [ha, if_true, herr]
      exact buildIndex_congr hash existing []
        ([] ++ ["Couldn't fingerprint " ++ x.name]) []
    · simp only [ha, if_false, Bool.false_eq_true]

theorem audio_fingerprint_error_policy_witness :
    audio_fingerprint (fun l : List Nat => l)
      (⟨false, true, true, [1]⟩ : FileState)
      = Except.error FpError.sizeUnavailable
    ∧ (find_duplicates (fun l : List Nat => l)
        [⟨"p/bad.mp3", "bad.mp3", ⟨false, true, true, [1]⟩⟩,
         ⟨"p/good.mp3", "good.mp3", ⟨true, true, true, [2]⟩⟩] []).2
      = (find_duplicates (fun l : List Nat => l)
          [⟨"p/good.mp3", "good.mp3", ⟨true, true, true, [2]⟩⟩] []).2 := by
  have h := audio_fingerprint_error_policy (fun l : List Nat => l)
    ⟨"p/bad.mp3", "bad.mp3", ⟨false, true, true, [1]⟩⟩
    [⟨"p/good.mp3", "good.mp3", ⟨true, true, true, [2]⟩⟩] [] [] rfl
  exact ⟨h.1, h.2.2.2.1⟩

/-- C2 counterexample: a file that cannot be opened or read - here
`open` fails - but whose size (one byte) is obtainable makes
`audio_fingerprint` return a digest (the fallback hash of the string
"1"), not a failure: the claim that such a file never yields a digest is
false on the code. -/
theorem audio_fingerprint_digest_on_open_failure :
    audio_fingerprint (fun l : List Nat => l)
      (⟨true, false, true, [7]⟩ : FileState)
      = Except.ok (decBytes 1) := rfl

/-! ### Download-loop theorems -/

/-- C8: a candidate whose sanitized destination filename already exists
in the download folder is not fetched over the network, leaves the
whole state - in particular the existing file and both counters -
unchanged except for the report, and is recorded SkippedExisting, not
SkippedDuplicate. -/
theorem skip_existing_no_fetch {α : Type} [DecidableEq α]
    (hash : List Nat → α) (fetchOf : String → Fetch) (folder : String)
    (st : DlState α) (link text : String)
    (hab : st.aborted = false)
    (hex : diskHas st.disk (destName folder link text) = true) :
    processCandidate hash fetchOf folder st (link, text)
      = { st with events := st.events ++ ["File already exists: " ++ text],
                  outcomes := st.outcomes ++ [Outcome.skippedExisting] } := by
  simp [processCandidate, hab, hex]

theorem skip_existing_no_fetch_witness :
    processCandidate (fun l : List Nat => l) (fun _ => Fetch.resp 200 none [5])
      "d" ⟨[("d/x.mp3", [9])], [], 0, 0, [], [], [], none, false⟩ ("x.mp3", "x")
      = ⟨[("d/x.mp3", [9])], [], 0, 0, ["File already exists: x"], [],
         [Outcome.skippedExisting], none, false⟩ := by
  have h := skip_existing_no_fetch (fun l : List Nat => l)
    (fun _ => Fetch.resp 200 none [5]) "d"
    ⟨[("d/x.mp3", [9])], [], 0, 0, [], [], [], none, false⟩ "x.mp3" "x"
    rfl (by decide)
  exact h

/-- C6: a candidate whose fetch returns a non-success status, or a
declared Content-Length different from the received byte count, or a
zero-byte body, is recorded as a failure and not a success: the success
count is untouched and the disk is exactly as before, so neither a
provisional nor a final file for the candidate remains. -/
theorem failed_transfer_no_file {α : Type} [DecidableEq α]
    (hash : List Nat → α) (fetchOf : String → Fetch) (folder : String)
    (st : DlState α) (link text : String) (status : Nat)
    (clen : Option Nat) (body : List Nat)
    (hab : st.aborted = false)
    (hex : diskHas st.disk (destName folder link text) = false)
    (hresp : fetchOf link = Fetch.resp status clen body)
    (hbad : status ≠ 200 ∨ (∃ n, clen = some n ∧ n ≠ body.length) ∨ body = []) :
    (processCandidate hash fetchOf folder st (link, text)).successful
        = st.successful
    ∧ (processCandidate hash fetchOf folder st (link, text)).disk = st.disk
    ∧ (processCandidate hash fetchOf folder st (link, text)).skipped
        = st.skipped
    ∧ (processCandidate hash fetchOf folder st (link, text)).outcomes
        = st.outcomes ++ [Outcome.failed]
    ∧ diskHas (processCandidate hash fetchOf folder st (link, text)).disk
        (destName folder link text) = false := by
  rcases hbad with h | ⟨n, hn, hne⟩ | h
  · simp [processCandidate, hab, hex, hresp, h]
  · by_cases h200 : status = 200
    · subst h200
      simp [processCandidate, hab, hex, hresp, hn, hne]
    · simp [processCandidate, hab, hex, hresp, h200]
  · subst h
    by_cases h200 : status = 200
    · subst h200
      cases hn : clen with
      | none => simp [processCandidate, hab, hex, hresp, hn]
      | some n =>
        by_cases hz : n = 0
        · subst hz
          simp [processCandidate, hab, hex, hresp, hn]
        · simp [processCandidate, hab, hex, hresp, hn, hz]
    · simp [processCandidate, hab, hex, hresp, h200]

theorem failed_transfer_no_file_witness :
    (processCandidate (fun l : List Nat => l)
        (fun _ => Fetch.resp 500 none [5]) "d"
        ⟨[], [], 0, 0, [], [], [], none, false⟩ ("x.mp3", "x")).successful = 0
    ∧ (processCandidate (fun l : List Nat => l)
        (fun _ => Fetch.resp 500 none [5]) "d"
        ⟨[], [], 0, 0, [], [], [], none, false⟩ ("x.mp3", "x")).disk = []
    ∧ (processCandidate (fun l : List Nat => l)
        (fun _ => Fetch.resp 500 none [5]) "d"
        ⟨[], [], 0, 0, [], [], [], none, false⟩ ("x.mp3", "x")).outcomes
      = [Outcome.failed] := by
  have h := failed_transfer_no_file (fun l : List Nat => l)
    (fun _ => Fetch.resp 500 none [5]) "d"
    ⟨[], [], 0, 0, [], [], [], none, false⟩ "x.mp3" "x" 500 none [5]
    rfl (by decide) rfl (Or.inl (by decide))
  exact ⟨h.1, h.2.1, h.2.2.2.1⟩

/-- C5 (code bug): when a candidate's processing raises before any
temporary filename has been assigned in the session - here the very
first candidate's fetch raises - the line-192 handler reads the
unassigned local `temp_filename`, the resulting `NameError` escapes the
loop, and the session aborts via the outer handler returning `(0, 0, 0)`:
no outcome is recorded and the second candidate, which on its own would
download fine and yield `(1, 1, 0)`, is never processed.  This
contradicts the claim that one candidate's failure never aborts the
session. -/
theorem first_candidate_error_aborts_session :
    download_audio_files (fun l : List Nat => l)
      (fun l => if l = "u/a.mp3" then Fetch.raises else Fetch.resp 200 none [5])
      "u" "d" [("a.mp3", "ta"), ("b.mp3", "tb")] [] [] = (0, 0, 0)
    ∧ (downloadSession (fun l : List Nat => l)
        (fun l => if l = "u/a.mp3" then Fetch.raises else Fetch.resp 200 none [5])
        "u" "d" [("a.mp3", "ta"), ("b.mp3", "tb")] [] []).aborted = true
    ∧ (downloadSession (fun l : List Nat => l)
        (fun l => if l = "u/a.mp3" then Fetch.raises else Fetch.resp 200 none [5])
        "u" "d" [("a.mp3", "ta"), ("b.mp3", "tb")] [] []).outcomes = []
    ∧ (downloadSession (fun l : List Nat => l)
        (fun l => if l = "u/a.mp3" then Fetch.raises else Fetch.resp 200 none [5])
        "u" "d" [("a.mp3", "ta"), ("b.mp3", "tb")] [] []).disk = []
    ∧ download_audio_files (fun l : List Nat => l)
        (fun l => if l = "u/a.mp3" then Fetch.raises else Fetch.resp 200 none [5])
        "u" "d" [("b.mp3", "tb")] [] [] = (1, 1, 0) := by decide

/-- C4 counterexample: two byte-identical audio files in the existing
folder - `e/one.mp3` walked first, `e/two.mp3` second - leave the
session index mapping their shared fingerprint to the SECOND path, not
to the first path seen: the prepopulation uses dict assignment, which
overwrites. -/
theorem existing_index_keeps_last_path :
    (buildExistingIndex (fun l : List Nat => l)
      [⟨"e/one.mp3", "one.mp3", ⟨true, true, true, [3]⟩⟩,
       ⟨"e/two.mp3", "two.mp3", ⟨true, true, true, [3]⟩⟩]).1
      = [(hashInput [3], "e/two.mp3")]
    ∧ ("e/two.mp3" : String) ≠ "e/one.mp3" := by decide

/-- C4 amended: the session index maps each fingerprint to the LAST
existing-folder file carrying it (prepopulation overwrites on repeated
fingerprints), and after that to each committed download, inserted
immediately after its rename; every candidate whose fetched bytes
fingerprint to a value already in the index is removed from its
temporary path and recorded SkippedDuplicate with the matched path
reported (last conjunct, fully generally); hence two byte-identical
page links yield exactly one Downloaded and one SkippedDuplicate
(reported relative to the first), and a candidate matching an
existing-folder file is skipped although nothing was downloaded before
it in the session. -/
theorem download_index_policy {α : Type} [DecidableEq α]
    (hash : List Nat → α) :
    (∀ e1 e2 : FsFile,
      isAudioFile e1.name = true → isAudioFile e2.name = true →
      e1.state.size_ok = true → e1.state.open_ok = true →
      e1.state.read_ok = true →
      e2.state.size_ok = true → e2.state.open_ok = true →
      e2.state.read_ok = true →
      e2.state.content = e1.state.content →
      (buildExistingIndex hash [e1, e2]).1
        = [(contentFingerprint hash e1.state.content, e2.path)])
    ∧ (∀ (fetchOf : String → Fetch) (folder l1 t1 l2 t2 : String)
          (body : List Nat),
        fetchOf l1 = Fetch.resp 200 none body →
        fetchOf l2 = Fetch.resp 200 none body →
        body ≠ [] →
        destName folder l2 t2 ≠ destName folder l1 t1 →
        destName folder l2 t2 ++ ".tmp" ≠ destName folder l1 t1 →
        runCandidates hash fetchOf folder
          ⟨[], [], 0, 0, [], [], [], none, false⟩ [(l1, t1), (l2, t2)]
          = ⟨[(destName folder l1 t1, body)],
             [(contentFingerprint hash body, destName folder l1 t1)],
             1, 1,
             ["Downloaded: " ++ t1,
              "Duplicate found: " ++ t2 ++ " matches "
                ++ lastSegment (destName folder l1 t1)],
             [l1, l2],
             [Outcome.downloaded, Outcome.skippedDuplicate],
             some (destName folder l2 t2 ++ ".tmp"), false⟩)
    ∧ (∀ (fetchOf : String → Fetch) (folder l1 t1 : String) (body : List Nat)
          (e : FsFile),
        isAudioFile e.name = true →
        e.state.size_ok = true → e.state.open_ok = true →
        e.state.read_ok = true →
        e.state.content = body →
        fetchOf l1 = Fetch.resp 200 none body →
        body ≠ [] →
        runCandidates hash fetchOf folder
          ⟨[], (buildExistingIndex hash [e]).1, 0, 0,
           (buildExistingIndex hash [e]).2, [], [], none, false⟩ [(l1, t1)]
          = ⟨[], [(contentFingerprint hash body, e.path)], 0, 1,
             ["Duplicate found: " ++ t1 ++ " matches " ++ lastSegment e.path],
             [l1], [Outcome.skippedDuplicate],
             some (destName folder l1 t1 ++ ".tmp"), false⟩)
    ∧ (∀ (fetchOf : String → Fetch) (folder l1 t1 : String) (body : List Nat)
          (st : DlState α) (p : String),
        st.aborted = false →
        diskHas st.disk (destName folder l1 t1) = false →
        fetchOf l1 = Fetch.resp 200 none body →
        body ≠ [] →
        lookupA st.index (contentFingerprint hash body) = some p →
        processCandidate hash fetchOf folder st (l1, t1)
          = { st with
              disk := diskRemove
                (dictSet st.disk (destName folder l1 t1 ++ ".tmp") body)
                (destName folder l1 t1 ++ ".tmp"),
              events := st.events ++
                ["Duplicate found: " ++ t1 ++ " matches " ++ lastSegment p],
              skipped := st.skipped + 1,
              fetched := st.fetched ++ [l1],
              outcomes := st.outcomes ++ [Outcome.skippedDuplicate],
              lastTemp := some (destName folder l1 t1 ++ ".tmp") }) := by
  refine ⟨?_, ?_, ?_, ?_⟩
  · intro e1 e2 ha1 ha2 hs1 ho1 hr1 hs2 ho2 hr2 hc
    have hfe1 := audio_fingerprint_readable hash e1.state hs1 ho1 hr1
    have hfe2 := audio_fingerprint_readable hash e2.state hs2 ho2 hr2
    rw [hc] at hfe2
    unfold buildExistingIndex
    rw [List.foldl_cons, List.foldl_cons, List.foldl_nil]
    simp [ha1, ha2, hfe1, hfe2, dictSet, lookupA]
  · intro fetchOf folder l1 t1 l2 t2 body hf1 hf2 hbody hne hne2
    have hfp : audio_fingerprint hash ⟨true, true, true, body⟩
        = Except.ok (contentFingerprint hash body) :=
      audio_fingerprint_readable hash ⟨true, true, true, body⟩ rfl rfl rfl
    have hlen0 : body.length ≠ 0 := by
      intro h
      exact hbody (List.length_eq_zero.mp h)
    have hne' : destName folder l1 t1 ≠ destName folder l2 t2 :=
      fun h => hne h.symm
    have hne2' : destName folder l1 t1 ≠ destName folder l2 t2 ++ ".tmp" :=
      fun h => hne2 h.symm
    unfold runCandidates
    rw [List.foldl_cons, List.foldl_cons, List.foldl_nil]
    rw [show processCandidate hash fetchOf folder
          ⟨[], [], 0, 0, [], [], [], none, false⟩ (l1, t1)
        = ⟨[(destName folder l1 t1, body)],
           [(contentFingerprint hash body, destName folder l1 t1)],
           1, 0, ["Downloaded: " ++ t1], [l1], [Outcome.downloaded],
           some (destName folder l1 t1 ++ ".tmp"), false⟩ from by
      simp [processCandidate, hf1, hlen0, diskHas, lookupA, dictSet,
        commitDownload, diskRemove, hfp, fileOnDisk]]
    simp [processCandidate, hf2, hlen0, diskHas, lookupA, dictSet,
      commitDownload, diskRemove, hfp, fileOnDisk, hne, hne2, hne', hne2']
  · intro fetchOf folder l1 t1 body e hae hse hoe hre hce hf1 hbody
    have hfe := audio_fingerprint_readable hash e.state hse hoe hre
    rw [hce] at hfe
    have hpre : buildExistingIndex hash [e]
        = ([(contentFingerprint hash body, e.path)], []) := by
      simp [buildExistingIndex, hae, hfe, dictSet, lookupA]
    have hfp : audio_fingerprint hash ⟨true, true, true, body⟩
        = Except.ok (contentFingerprint hash body) :=
      audio_fingerprint_readable hash ⟨true, true, true, body⟩ rfl rfl rfl
    have hlen0 : body.length ≠ 0 := by
      intro h
      exact hbody (List.length_eq_zero.mp h)
    rw [hpre]
    unfold runCandidates
    rw [List.foldl_cons, List.foldl_nil]
    simp [processCandidate, hf1, hlen0, diskHas, lookupA, dictSet,
      commitDownload, diskRemove, hfp, fileOnDisk]
  · intro fetchOf folder l1 t1 body st p hab hex hf1 hbody hlook
    have hfp : audio_fingerprint hash ⟨true, true, true, body⟩
        = Except.ok (contentFingerprint hash body) :=
      audio_fingerprint_readable hash ⟨true, true, true, body⟩ rfl rfl rfl
    have hlen0 : body.length ≠ 0 := by
      intro h
      exact hbody (List.length_eq_zero.mp h)
    have hemp : st.index.isEmpty = false := by
      cases hidx : st.index with
      | nil => rw [hidx] at hlook; simp [lookupA] at hlook
      | cons q rest => simp [List.isEmpty]
    simp [processCandidate, hab, hex, hf1, hlen0, hemp, hfp, fileOnDisk, hlook]

theorem download_index_policy_witness :
    (buildExistingIndex (fun l : List Nat => l)
      [⟨"e/a.mp3", "a.mp3", ⟨true, true, true, [4]⟩⟩,
       ⟨"e/b.mp3", "b.mp3", ⟨true, true, true, [4]⟩⟩]).1
      = [(contentFingerprint (fun l : List Nat => l) [4], "e/b.mp3")]
    ∧ runCandidates (fun l : List Nat => l) (fun _ => Fetch.resp 200 none [1])
        "d" ⟨[], [], 0, 0, [], [], [], none, false⟩
        [("x.mp3", "x"), ("y.mp3", "y")]
      = ⟨[(destName "d" "x.mp3" "x", [1])],
         [(contentFingerprint (fun l : List Nat => l) [1],
           destName "d" "x.mp3" "x")],
         1, 1,
         ["Downloaded: " ++ "x",
          "Duplicate found: " ++ "y" ++ " matches "
            ++ lastSegment (destName "d" "x.mp3" "x")],
         ["x.mp3", "y.mp3"],
         [Outcome.downloaded, Outcome.skippedDuplicate],
         some (destName "d" "y.mp3" "y" ++ ".tmp"), false⟩
    ∧ runCandidates (fun l : List Nat => l) (fun _ => Fetch.resp 200 none [2])
        "d" ⟨[], (buildExistingIndex (fun l : List Nat => l)
                    [⟨"e/a.mp3", "a.mp3", ⟨true, true, true, [2]⟩⟩]).1,
             0, 0,
             (buildExistingIndex (fun l : List Nat => l)
               [⟨"e/a.mp3", "a.mp3", ⟨true, true, true, [2]⟩⟩]).2,
             [], [], none, false⟩ [("z.mp3", "z")]
      = ⟨[], [(contentFingerprint (fun l : List Nat => l) [2], "e/a.mp3")],
         0, 1,
         ["Duplicate found: " ++ "z" ++ " matches " ++ lastSegment "e/a.mp3"],
         ["z.mp3"], [Outcome.skippedDuplicate],
         some (destName "d" "z.mp3" "z" ++ ".tmp"), false⟩
    ∧ processCandidate (fun l : List Nat => l) (fun _ => Fetch.resp 200 none [6])
        "d" ⟨[], [(contentFingerprint (fun l : List Nat => l) [6], "lib/w.mp3")],
             0, 0, [], [], [], none, false⟩ ("w.mp3", "w")
      = { (⟨[], [(contentFingerprint (fun l : List Nat => l) [6], "lib/w.mp3")],
            0, 0, [], [], [], none, false⟩ : DlState (List Nat)) with
          disk := diskRemove
            (dictSet [] (destName "d" "w.mp3" "w" ++ ".tmp") [6])
            (destName "d" "w.mp3" "w" ++ ".tmp"),
          events := [] ++
            ["Duplicate found: " ++ "w" ++ " matches " ++ lastSegment "lib/w.mp3"],
          skipped := 0 + 1,
          fetched := [] ++ ["w.mp3"],
          outcomes := [] ++ [Outcome.skippedDuplicate],
          lastTemp := some (destName "d" "w.mp3" "w" ++ ".tmp") } := by
  refine ⟨?_, ?_, ?_, ?_⟩
  · exact (download_index_policy (fun l : List Nat => l)).1
      ⟨"e/a.mp3", "a.mp3", ⟨true, true, true, [4]⟩⟩
      ⟨"e/b.mp3", "b.mp3", ⟨true, true, true, [4]⟩⟩
      (by decide) (by decide) rfl rfl rfl rfl rfl rfl rfl
  · exact (download_index_policy (fun l : List Nat => l)).2.1
      (fun _ => Fetch.resp 200 none [1]) "d" "x.mp3" "x" "y.mp3" "y" [1]
      rfl rfl (by decide) (by decide) (by decide)
  · exact (download_index_policy (fun l : List Nat => l)).2.2.1
      (fun _ => Fetch.resp 200 none [2]) "d" "z.mp3" "z" [2]
      ⟨"e/a.mp3", "a.mp3", ⟨true, true, true, [2]⟩⟩
      (by decide) rfl rfl rfl rfl rfl (by decide)
  · exact (download_index_policy (fun l : List Nat => l)).2.2.2
      (fun _ => Fetch.resp 200 none [6]) "d" "w.mp3" "w" [6]
      ⟨[], [(contentFingerprint (fun l : List Nat => l) [6], "lib/w.mp3")],
       0, 0, [], [], [], none, false⟩ "lib/w.mp3"
      rfl (by decide) rfl (by decide) (by simp [lookupA])

/-! ### Link-extraction theorems -/

theorem audio_links_fold (url : String) (page : List (String × String)) :
    ∀ acc : List (String × String),
      page.foldl
        (fun acc p =>
          if isAudioHref p.1 then acc ++ [(resolveLink url p.1, stripStr p.2)]
          else acc) acc
      = acc ++ (page.filter (fun p => isAudioHref p.1)).map
          (fun p => (resolveLink url p.1, stripStr p.2)) := by
  induction page with
  | nil => intro acc; simp
  | cons p rest ih =>
    intro acc
    rw [List.foldl_cons, List.filter_cons]
    by_cases h : isAudioHref p.1
    · simp only [h, if_true]
      rw [ih]
      simp
    · simp only [h, if_false, Bool.false_eq_true]
      rw [ih]

/-- C9 amended: the candidates are exactly the page links whose entire
href ends case-insensitively in .mp3/.m4a/.wav/.aac (an href whose path
ends in an audio extension but which carries a trailing query string is
not matched), in page order, each paired with its stripped visible text;
an href starting with "http" is kept unchanged, and every other href is
appended to the whole source URL - the URL with trailing slashes removed,
plus "/", plus the href with leading slashes removed - not resolved
against the URL's base directory. -/
theorem audio_links_characterization (url : String)
    (page : List (String × String)) :
    audio_links url page
      = (page.filter (fun p => isAudioHref p.1)).map
          (fun p => (resolveLink url p.1, stripStr p.2))
    ∧ (∀ href, strStartsWith href "http" = true → resolveLink url href = href)
    ∧ (∀ href, strStartsWith href "http" = false →
        resolveLink url href = rstripSlash url ++ "/" ++ lstripSlash href) := by
  refine ⟨?_, ?_, ?_⟩
  · unfold audio_links
    rw [audio_links_fold]
    simp
  · intro href h
    simp [resolveLink, h]
  · intro href h
    simp [resolveLink, h]

theorem audio_links_characterization_witness :
    audio_links "http://h" [("a.mp3", "t"), ("b.txt", "u")]
      = ([("a.mp3", "t"), ("b.txt", "u")].filter
          (fun p => isAudioHref p.1)).map
          (fun p => (resolveLink "http://h" p.1, stripStr p.2))
    ∧ resolveLink "http://h" "http://x/a.mp3" = "http://x/a.mp3"
    ∧ resolveLink "http://h" "a.mp3"
        = rstripSlash "http://h" ++ "/" ++ lstripSlash "a.mp3" :=
  ⟨(audio_links_characterization "http://h" [("a.mp3", "t"), ("b.txt", "u")]).1,
   (audio_links_characterization "http://h"
     [("a.mp3", "t"), ("b.txt", "u")]).2.1 "http://x/a.mp3" (by decide),
   (audio_links_characterization "http://h"
     [("a.mp3", "t"), ("b.txt", "u")]).2.2 "a.mp3" (by decide)⟩

/-- C9 counterexample: for the page URL `http://h/dir/page.html` and the
relative link `a.mp3`, the code produces the candidate URL
`http://h/dir/page.html/a.mp3` - the href appended to the whole source
URL - whereas resolving against the source URL's base, as the claim
states, would yield `http://h/dir/a.mp3`: the extracted candidate list
is not the base-resolved one. -/
theorem audio_links_not_base_resolved :
    audio_links "http://h/dir/page.html" [("a.mp3", "t")]
      = [("http://h/dir/page.html/a.mp3", "t")]
    ∧ specResolveAgainstBase "http://h/dir/page.html" "a.mp3"
      = "http://h/dir/a.mp3"
    ∧ audio_links "http://h/dir/page.html" [("a.mp3", "t")]
      ≠ [(specResolveAgainstBase "http://h/dir/page.html" "a.mp3", "t")] := by
  decide
